import Mathlib

set_option maxRecDepth 2000

/-
Shallow embedding of the text-extraction core of `src/app.py`
(huelma-lluvia-bot): the functions `parsear_valores`,
`extraer_linea_estacion`, `normalizar_fecha_ddmmyy_a_ddmmyyyy`,
`extraer_timestamp`, `fecha_de_timestamp`, `formatear_hoy` and
`formatear_semanal`, together with the Python string primitives they
use (`str.split`, `str.splitlines`, `str.strip`, `str.lower`,
`str.replace`, the regular expressions `TS_RE` and
`-?\d+(\.\d+)?`, and `float(...)` parsing).

Strings are modelled as `List Char`; Python floats are modelled as
exact rationals (every numeric literal in this domain is a short
decimal, so the IEEE-754 rounding of CPython is not observable in any
of the properties below, except for tie-breaking in `"%.1f"`
formatting, which no property exercises).
-/

namespace HuelmaBot

/-- Strings as lists of characters. -/
abbrev Str := List Char

/-- Convert a Lean string literal to the `List Char` representation. -/
def chars (s : String) : Str := s.toList

/-- The ASCII whitespace characters recognised by Python's `str.split()`,
`str.splitlines()` and `str.strip()` (space, tab, newline, carriage
return, vertical tab, form feed). -/
def isWs (c : Char) : Bool :=
  c = ' ' || c = '\t' || c = '\n' || c = '\r' || c = '\x0b' || c = '\x0c'

/-- A word character for the purpose of the regex `\b` boundary
(Python `\w`, restricted to ASCII, which is all the source documents
use around the date patterns). -/
def isWordChar (c : Char) : Bool := c.isAlphanum || c = '_'

/-- Python `linea.replace(",", ".")`: rewrite every comma to a point. -/
def replaceCommaDot (s : Str) : Str := s.map fun c => if c = ',' then '.' else c

/-- Helper for `splitWs`; `acc` is the current token, reversed. -/
def splitWsAux : Str → Str → List Str
  | [], acc => if acc.isEmpty then [] else [acc.reverse]
  | c :: cs, acc =>
    if isWs c then
      if acc.isEmpty then splitWsAux cs [] else acc.reverse :: splitWsAux cs []
    else splitWsAux cs (c :: acc)

/-- Python `s.split()` with no argument: split on runs of whitespace,
discarding empty tokens. -/
def splitWs (s : Str) : List Str := splitWsAux s []

/-- Helper for `splitLines`; `acc` is the current line, reversed. -/
def splitLinesAux : Str → Str → List Str
  | [], acc => if acc.isEmpty then [] else [acc.reverse]
  | '\r' :: '\n' :: cs, acc => acc.reverse :: splitLinesAux cs []
  | '\r' :: cs, acc => acc.reverse :: splitLinesAux cs []
  | '\n' :: cs, acc => acc.reverse :: splitLinesAux cs []
  | c :: cs, acc => splitLinesAux cs (c :: acc)

/-- Python `s.splitlines()` restricted to the `\n`, `\r` and `\r\n`
line breaks (the only ones occurring in extracted PDF text). -/
def splitLines (s : Str) : List Str := splitLinesAux s []

/-- Helper for `splitOn`; `acc` is the current field, reversed. -/
def splitOnAux (sep : Char) : Str → Str → List Str
  | [], acc => [acc.reverse]
  | c :: cs, acc =>
    if c = sep then acc.reverse :: splitOnAux sep cs []
    else splitOnAux sep cs (c :: acc)

/-- Python `s.split(sep)` for a one-character separator: empty fields
are kept. -/
def splitOn (sep : Char) (s : Str) : List Str := splitOnAux sep s []

/-- Python `s.strip()`: drop leading and trailing whitespace. -/
def pyStrip (s : Str) : Str := ((s.dropWhile isWs).reverse.dropWhile isWs).reverse

/-- Python `s.lower()` (ASCII letters only; the station keys used by
the bot are plain ASCII). -/
def lowerStr (s : Str) : Str := s.map Char.toLower

/-- Does `hay` start with `needle`? -/
def leadsWith : Str → Str → Bool
  | [], _ => true
  | _ :: _, [] => false
  | a :: as, b :: bs => a == b && leadsWith as bs

/-- Python `needle in hay`: contiguous-substring test. -/
def esSubcadena (needle : Str) : Str → Bool
  | [] => needle.isEmpty
  | b :: bs => leadsWith needle (b :: bs) || esSubcadena needle bs

/-- Value of a string of decimal digits (Python `int(...)` on the digit
strings produced by the date regexes). -/
def digitsToNat (ds : Str) : Nat := ds.foldl (fun a c => 10 * a + (c.toNat - 48)) 0

/-- The decimal digit character for `n < 10`. -/
def digitChar (n : Nat) : Char := Char.ofNat (48 + n)

/-- Fuel-indexed decimal rendering of a natural number (the fuel is
always sufficient at `n + 1`). -/
def natToCharsAux : Nat → Nat → List Char
  | 0, _ => []
  | fuel + 1, n =>
    if n < 10 then [digitChar n]
    else natToCharsAux fuel (n / 10) ++ [digitChar (n % 10)]

/-- Decimal rendering of a natural number (Python `str(n)` / `f"{n}"`
for non-negative `n`). -/
def natToChars (n : Nat) : List Char := natToCharsAux (n + 1) n

/-- Does a token match `\d+(\.\d+)?` (the unsigned part of the numeric
regex used by `parsear_valores`)? One or more digits, optionally
followed by a point and one or more digits, consuming the whole token. -/
def matchUnsigned (t : Str) : Bool :=
  !(t.takeWhile Char.isDigit).isEmpty &&
    ((t.dropWhile Char.isDigit).isEmpty ||
      ((t.dropWhile Char.isDigit).headD ' ' == '.' &&
        !((t.dropWhile Char.isDigit).tail.takeWhile Char.isDigit).isEmpty &&
        ((t.dropWhile Char.isDigit).tail.dropWhile Char.isDigit).isEmpty))

/-- Does a token fully match `re.fullmatch(r"-?\d+(\.\d+)?", token)`
(line 185 of `src/app.py`)? -/
def matchNum (t : Str) : Bool :=
  if t.headD ' ' = '-' then matchUnsigned t.tail else matchUnsigned t

/-- Unsigned decimal parsing, as CPython `float(...)` performs it on
tokens without sign, exponent or leading/trailing whitespace: an
optional integer part and an optional fractional part, at least one of
which must be non-empty. Returns `none` exactly where `float(...)`
raises `ValueError` on such tokens. -/
def parseUFloat? (t : Str) : Option ℚ :=
  if (t.dropWhile Char.isDigit).isEmpty then
    if (t.takeWhile Char.isDigit).isEmpty then none
    else some (digitsToNat (t.takeWhile Char.isDigit))
  else if (t.dropWhile Char.isDigit).headD ' ' = '.' then
    if ((t.dropWhile Char.isDigit).tail.dropWhile Char.isDigit).isEmpty &&
        !((t.takeWhile Char.isDigit).isEmpty &&
          ((t.dropWhile Char.isDigit).tail.takeWhile Char.isDigit).isEmpty) then
      some ((digitsToNat (t.takeWhile Char.isDigit) : ℚ) +
        (digitsToNat ((t.dropWhile Char.isDigit).tail.takeWhile Char.isDigit) : ℚ) /
          (10 : ℚ) ^ ((t.dropWhile Char.isDigit).tail.takeWhile Char.isDigit).length)
    else none
  else none

/-- CPython `float(token)` on the token shapes reachable from
`parsear_valores` (optional sign, then digits and an optional decimal
point; exponents, `inf`/`nan` and surrounding whitespace never pass the
`re.fullmatch` guard, so they are omitted). `none` models `ValueError`. -/
def parseFloat? (t : Str) : Option ℚ :=
  if t.headD ' ' = '-' then (parseUFloat? t.tail).map Neg.neg
  else if t.headD ' ' = '+' then parseUFloat? t.tail
  else parseUFloat? t

/-- `parsear_valores` (lines 181-190 of `src/app.py`):

    partes = linea.replace(",", ".").split()
    valores = []
    for token in partes:
        if re.fullmatch(r"-?\d+(\.\d+)?", token):
            try:
                valores.append(float(token))
            except ValueError:
                pass
    return valores

The `except ValueError: pass` is the `none` case of `parseFloat?`. -/
def parsear_valores (linea : Str) : List ℚ :=
  (splitWs (replaceCommaDot linea)).filterMap fun token =>
    if matchNum token then parseFloat? token else none

/-- `extraer_linea_estacion` (lines 224-228 of `src/app.py`): return
the first line whose lowercase form contains the lowercase key, after
`strip()`; `None` when no line matches. -/
def extraer_linea_estacion (texto key : Str) : Option Str :=
  match (splitLines texto).find? (fun linea => esSubcadena (lowerStr key) (lowerStr linea)) with
  | some linea => some (pyStrip linea)
  | none => none

/-- The numeric tokens of a line, in left-to-right order: the
whitespace-delimited tokens (after the comma-to-point rewrite) that
fully match the numeric regex. -/
def numTokens (linea : Str) : List Str :=
  (splitWs (replaceCommaDot linea)).filter matchNum

/-- The rational value of a token known to match the numeric regex. -/
def floatVal (t : Str) : ℚ := (parseFloat? t).getD 0

/-- The `\b` word boundary after the final minutes digit of `TS_RE`:
the next character, if any, must not be a word character. -/
def boundaryAfter : Str → Bool
  | [] => true
  | c :: _ => !isWordChar c

/-- The `\b` word boundary before the first date digit of `TS_RE`:
the previous character, if any, must not be a word character (the
following character is a digit whenever the rest of the pattern
matches). -/
def prevOk : Option Char → Bool
  | none => true
  | some p => !isWordChar p

/-- Match the suffix `\s+(\d{1,2}:\d{2})\b` of `TS_RE` at the start of
`s`, returning the captured hour group. The greedy `\s+` and `\d{1,2}`
need no backtracking here: whitespace and digits are disjoint, giving
back whitespace puts a non-digit where the hour must start, and a
shorter hour puts a digit where the colon must be. -/
def matchTimeTail (s : Str) : Option Str :=
  let r := s.dropWhile isWs
  let hs := r.takeWhile Char.isDigit
  if (s.takeWhile isWs).isEmpty then none
  else if hs.length = 1 || hs.length = 2 then
    match r.dropWhile Char.isDigit with
    | ':' :: a :: b :: r3 =>
      if a.isDigit && b.isDigit && boundaryAfter r3 then some (hs ++ ':' :: a :: b :: [])
      else none
    | _ => none
  else none

/-- Match `TS_RE = \b(\d{2}/\d{2}/(\d{2}|\d{4}))\s+(\d{1,2}:\d{2})\b`
(line 44 of `src/app.py`) at the current position: `prev` is the
character immediately before the position, `s` the remainder of the
text. Returns the captured groups `(fecha, hora)`. The year
alternation `(\d{2}|\d{4})` is tried two digits first, with
backtracking to four, exactly as the regex engine does. -/
def matchTsAt (prev : Option Char) (s : Str) : Option (Str × Str) :=
  match s with
  | d1 :: d2 :: '/' :: m1 :: m2 :: '/' :: y1 :: y2 :: rest2 =>
    if prevOk prev && d1.isDigit && d2.isDigit && m1.isDigit && m2.isDigit &&
        y1.isDigit && y2.isDigit then
      match matchTimeTail rest2 with
      | some hora => some ([d1, d2, '/', m1, m2, '/', y1, y2], hora)
      | none =>
        match rest2 with
        | y3 :: y4 :: rest3 =>
          if y3.isDigit && y4.isDigit then
            match matchTimeTail rest3 with
            | some hora => some ([d1, d2, '/', m1, m2, '/', y1, y2, y3, y4], hora)
            | none => none
          else none
        | _ => none
    else none
  | _ => none

/-- `TS_RE.search(texto)`: try to match at each position from left to
right; `prev` carries the previous character for the leading `\b`. -/
def searchTs : Option Char → Str → Option (Str × Str)
  | _, [] => none
  | prev, c :: cs =>
    match matchTsAt prev (c :: cs) with
    | some g => some g
    | none => searchTs (some c) cs

/-- `normalizar_fecha_ddmmyy_a_ddmmyyyy` (lines 160-163 of
`src/app.py`): `d, m, yy = ddmmyy.split("/")`, then
`f"{d}/{m}/{2000 + int(yy)}"`. The `[]` fallback models the
`ValueError` of unpacking a split that does not have exactly three
fields; it is unreachable from `extraer_timestamp`, whose regex always
supplies a two-separator date. -/
def normalizar_fecha_ddmmyy_a_ddmmyyyy (ddmmyy : Str) : Str :=
  match splitOn '/' ddmmyy with
  | [d, m, yy] => d ++ '/' :: m ++ '/' :: natToChars (2000 + digitsToNat yy)
  | _ => []

/-- `extraer_timestamp` (lines 166-178 of `src/app.py`): search for the
first `TS_RE` match; if the year group has two digits, normalize it;
return `"{fecha} {hora}"`, or `None` when nothing matches. The
`parts[2]` subscript of the Python is total here because the match
always has exactly three date fields. -/
def extraer_timestamp (texto : Str) : Option Str :=
  match searchTs none texto with
  | none => none
  | some (fecha, hora) =>
    if ((splitOn '/' fecha).getD 2 []).length = 2 then
      some (normalizar_fecha_ddmmyy_a_ddmmyyyy fecha ++ ' ' :: hora)
    else some (fecha ++ ' ' :: hora)

/-- Python truthiness of an optional string: `None` and `""` are falsy. -/
def esFalsy : Option Str → Bool
  | none => true
  | some l => l.isEmpty

/-- Python `f"{v:.1f}"` on the exact rational standing in for the
float. CPython rounds the binary double half-to-even; on the exact
rational we round half away from zero, which agrees everywhere except
on exact decimal ties (`x.x5`), which the source data (one-decimal
readings) never produces and no property below exercises. A negative
value keeps its sign even when it rounds to zero, like CPython's
`"-0.0"`. -/
def fmt1 (q : ℚ) : Str :=
  (if q < 0 then ['-'] else []) ++
    (natToChars ((⌊|q| * 10 + 1 / 2⌋).toNat / 10) ++
      '.' :: natToChars ((⌊|q| * 10 + 1 / 2⌋).toNat % 10))

/-- Python `", ".join(...)`. -/
def joinSep (sep : Str) : List Str → Str
  | [] => []
  | [x] => x
  | x :: y :: xs => x ++ sep ++ joinSep sep (y :: xs)

/-- One value line `f"• {lab}: *{v:.1f}* mm"` (without the trailing
newline), shared by both formatters. -/
def bulletLinea (lab : Str) (v : ℚ) : Str :=
  chars "• " ++ lab ++ chars ": *" ++ fmt1 v ++ chars "* mm"

/-- The header of `formatear_hoy`: the timestamp when truthy, the
placeholder otherwise. -/
def hdrHoy (timestamp : Option Str) : Str :=
  chars "📄 *Lluvia diaria*" ++
    (match timestamp with
     | some ts =>
       if ts.isEmpty then chars " (actualizado: no detectado)"
       else chars " (actualizado: " ++ ts ++ [')']
     | none => chars " (actualizado: no detectado)")

/-- The seven fixed field labels of the daily report (lines 298-306 of
`src/app.py`). -/
def etiquetasHoy : List Str :=
  [chars "Hora (actual)", chars "Hora (anterior)", chars "Día (actual)",
   chars "Día (anterior)", chars "Mes (actual)", chars "Mes (anterior)",
   chars "Año hidrológico (actual)"]

/-- `formatear_hoy` (lines 283-320 of `src/app.py`). -/
def formatear_hoy (timestamp : Option Str) (linea : Option Str) : Str :=
  let header := hdrHoy timestamp
  if esFalsy linea then
    header ++ chars "\n\nNo se han registrado precipitaciones en *Huelma* hoy."
  else
    let valores := parsear_valores (linea.getD [])
    let msg := header ++ '\n' :: (chars "*Huelma*:" ++ ['\n'])
    if 7 ≤ valores.length then
      pyStrip (msg ++
        (List.zipWith (fun lab v => bulletLinea lab v ++ ['\n']) etiquetasHoy
          (valores.take 7)).flatten)
    else if valores.isEmpty then
      msg ++ chars "He encontrado la fila, pero no he podido extraer valores numéricos."
    else
      msg ++ chars "Valores detectados (mm): " ++ joinSep (chars ", ") (valores.map fmt1)

/-- `fecha_de_timestamp` (lines 193-199 of `src/app.py`). The
`datetime.utcnow().strftime("%d/%m/%Y")` fallback is an external input
to the core and is passed in explicitly as `hoyUtc`. -/
def fecha_de_timestamp (ts : Option Str) (hoyUtc : Str) : Str :=
  match ts with
  | some t =>
    if t.isEmpty then hoyUtc
    else
      match splitWs t with
      | x :: _ => x
      | [] => hoyUtc
  | none => hoyUtc

/-- Gregorian leap year. -/
def esBisiesto (y : Nat) : Bool := y % 4 = 0 && (y % 100 ≠ 0 || y % 400 = 0)

/-- Days in a month of the Gregorian calendar. -/
def diasEnMes (y m : Nat) : Nat :=
  if m = 2 then (if esBisiesto y then 29 else 28)
  else if m = 4 || m = 6 || m = 9 || m = 11 then 30
  else 31

/-- A calendar date, as `datetime.date` holds it. -/
structure Fecha where
  anio : Nat
  mes : Nat
  dia : Nat
deriving DecidableEq

/-- The previous calendar day (`d - timedelta(days=1)`). -/
def diaAnterior : Fecha → Fecha
  | ⟨y, m, d⟩ =>
    if 2 ≤ d then ⟨y, m, d - 1⟩
    else if 2 ≤ m then ⟨y, m - 1, diasEnMes y (m - 1)⟩
    else ⟨y - 1, 12, 31⟩

/-- `d - timedelta(days=n)` as `n` repetitions of the previous-day
step. -/
def restarDias : Fecha → Nat → Fecha
  | f, 0 => f
  | f, n + 1 => restarDias (diaAnterior f) n

/-- Zero-padded two-digit rendering (strftime `%d` / `%m`). -/
def pad2 (n : Nat) : Str := if n < 10 then '0' :: natToChars n else natToChars n

/-- Zero-padded four-digit rendering (strftime `%Y`). -/
def pad4 (n : Nat) : Str :=
  List.replicate (4 - (natToChars n).length) '0' ++ natToChars n

/-- `date.strftime("%d/%m/%Y")`. -/
def strftimeDMY (f : Fecha) : Str := pad2 f.dia ++ '/' :: pad2 f.mes ++ '/' :: pad4 f.anio

/-- Modelled on CPython `datetime.strptime(s, "%d/%m/%Y").date()`:
three `/`-separated fields — a one-or-two-digit day, a one-or-two-digit
month, a four-digit year — with the day valid for the month. `none`
models the `ValueError` CPython raises on anything else. -/
def strptimeDMY? (s : Str) : Option Fecha :=
  match splitOn '/' s with
  | [ds, ms, ys] =>
    if (ds ≠ [] ∧ ds.length ≤ 2 ∧ ∀ c ∈ ds, c.isDigit = true) ∧
        (ms ≠ [] ∧ ms.length ≤ 2 ∧ ∀ c ∈ ms, c.isDigit = true) ∧
        (ys.length = 4 ∧ ∀ c ∈ ys, c.isDigit = true) then
      if 1 ≤ digitsToNat ds ∧ 1 ≤ digitsToNat ms ∧ digitsToNat ms ≤ 12 ∧
          digitsToNat ds ≤ diasEnMes (digitsToNat ys) (digitsToNat ms) then
        some ⟨digitsToNat ys, digitsToNat ms, digitsToNat ds⟩
      else none
    else none
  | _ => none

/-- The header of `formatear_semanal`. -/
def cabeceraSemanal (timestamp : Option Str) : Str :=
  chars "📄 *Lluvia semanal*" ++
    (match timestamp with
     | some ts =>
       if ts.isEmpty then chars " (actualizado: no detectado)"
       else chars " (actualizado: " ++ ts ++ [')']
     | none => chars " (actualizado: no detectado)")

/-- The string built by the tail of `formatear_semanal` once rendering
of the daily breakdown is reached: header, station caption, one line
per `(label, value)` pair, a blank line, the totals caption, and the
month / hydrological-year lines, all passed through `.strip()`. -/
def cuerpoSemanal (header : Str) (etiquetas : List Str) (lluvias : List ℚ)
    (mes anio : Option ℚ) : Str :=
  pyStrip (header ++ '\n' ::
    (chars "*Huelma – lluvia diaria (mm):*" ++ '\n' ::
      ((List.zipWith (fun f v => bulletLinea f v ++ ['\n']) etiquetas lluvias).flatten ++
        ('\n' :: (chars "*Acumulados:*" ++ '\n' ::
          ((match mes with
            | some v => bulletLinea (chars "Mes actual") v ++ ['\n']
            | none => []) ++
            (match anio with
             | some v => bulletLinea (chars "Año hidrológico") v ++ ['\n']
             | none => [])))))))

/-- The `if fechas_cols and len(fechas_cols) >= 2` reassignment of
`formatear_semanal`: the recovered date columns are kept only when at
least two were recovered. -/
def fechasRec (fechas_cols : Option (List Str)) : Option (List Str) :=
  match fechas_cols with
  | some fc => if 2 ≤ fc.length then some fc else none
  | none => none

/-- The arity the weekly formatter demands of the located row once the
date columns are settled: the number of recovered labels when at least
two were recovered, else seven. -/
def arityReq (fechas_cols : Option (List Str)) : Nat :=
  match fechasRec fechas_cols with
  | some fc => fc.length
  | none => 7

/-- `formatear_semanal` (lines 324-371 of `src/app.py`). `hoyUtc`
stands for `datetime.utcnow().strftime("%d/%m/%Y")`, the one external
input. The result is `none` exactly when the Python function raises —
the `strptime` call on an unparseable recovered date. -/
def formatear_semanal (timestamp : Option Str) (fechas_cols : Option (List Str))
    (linea : Option Str) (hoyUtc : Str) : Option Str :=
  let header := cabeceraSemanal timestamp
  if esFalsy linea then
    some (header ++ chars "\n\nNo encuentro la fila de *Huelma* en el PDF.")
  else
    let valores := parsear_valores (linea.getD [])
    if valores.length < 7 then
      some (header ++ chars "\n\nNo hay suficientes valores para mostrar la semana.")
    else
      let mes_actual : Option ℚ :=
        if 2 ≤ valores.length then valores.get? (valores.length - 2) else none
      let anio_hidrologico : Option ℚ :=
        if 1 ≤ valores.length then valores.get? (valores.length - 1) else none
      let n : Nat := arityReq fechas_cols
      if valores.length < n then
        some (header ++ chars "\n\nNo hay suficientes valores diarios (" ++
          natToChars valores.length ++ chars ") para " ++ natToChars n ++
          chars " columnas del PDF.")
      else
        match fechasRec fechas_cols with
        | some fc => some (cuerpoSemanal header fc (valores.take n) mes_actual anio_hidrologico)
        | none =>
          match strptimeDMY? (fecha_de_timestamp timestamp hoyUtc) with
          | none => none
          | some endDate =>
            some (cuerpoSemanal header
              ((List.range n).map fun i => strftimeDMY (restarDias endDate i))
              (valores.take n) mes_actual anio_hidrologico)

/-- Is a display line a value line (starts with the bullet)? -/
def esBala (l : Str) : Bool := l.headD ' ' == '•'

/-- The number of daily value lines of a report: bullet lines before
the `*Acumulados:*` caption. -/
def lineasDiarias (s : Str) : Nat :=
  (((splitLines s).takeWhile fun l => !(l == chars "*Acumulados:*")).filter esBala).length

/-- The number of total lines of a report: bullet lines from the
`*Acumulados:*` caption on. -/
def lineasTotales (s : Str) : Nat :=
  (((splitLines s).dropWhile fun l => !(l == chars "*Acumulados:*")).filter esBala).length

/- ============ basic character-class lemmas ============ -/

theorem isAlpha_isDigit_false {c : Char} (h : c.isAlpha = true) : c.isDigit = false := by
  simp [Char.isAlpha, Char.isUpper, Char.isLower, Char.isDigit, UInt32.le_def,
    BitVec.le_def] at *
  omega

theorem alpha_ne {c : Char} (h : c.isAlpha = true) (d : Char) (hd : d.isAlpha = false) :
    c ≠ d := fun e => by subst e; rw [h] at hd; cases hd

theorem digit_ne {c : Char} (h : c.isDigit = true) (d : Char) (hd : d.isDigit = false) :
    c ≠ d := fun e => by subst e; rw [h] at hd; cases hd

theorem alpha_isWs_false {c : Char} (h : c.isAlpha = true) : isWs c = false := by
  simp [isWs, alpha_ne h ' ' (by decide), alpha_ne h '\t' (by decide),
    alpha_ne h '\n' (by decide), alpha_ne h '\r' (by decide),
    alpha_ne h '\x0b' (by decide), alpha_ne h '\x0c' (by decide)]

theorem digit_isWs_false {c : Char} (h : c.isDigit = true) : isWs c = false := by
  simp [isWs, digit_ne h ' ' (by decide), digit_ne h '\t' (by decide),
    digit_ne h '\n' (by decide), digit_ne h '\r' (by decide),
    digit_ne h '\x0b' (by decide), digit_ne h '\x0c' (by decide)]

/- ============ splitting lemmas ============ -/

theorem splitWsAux_append_space (y : Str) :
    ∀ (x : Str) (acc : Str), splitWsAux (x ++ ' ' :: y) acc = splitWsAux x acc ++ splitWs y := by
  intro x
  induction x with
  | nil =>
    intro acc
    rcases acc with _ | ⟨a, as⟩ <;> simp [splitWsAux, splitWs, isWs]
  | cons c x ih =>
    intro acc
    by_cases hc : isWs c
    · rcases acc with _ | ⟨a, as⟩ <;> simp [splitWsAux, hc, ih]
    · simp [splitWsAux, hc, ih]

theorem splitWsAux_noWs (A : Str) (hA : ∀ c ∈ A, isWs c = false) :
    ∀ acc : Str, splitWsAux A acc = if (acc.reverse ++ A).isEmpty then [] else [acc.reverse ++ A] := by
  induction A with
  | nil =>
    intro acc
    rcases acc with _ | ⟨a, as⟩ <;> simp [splitWsAux]
  | cons c A ih =>
    intro acc
    have hc : isWs c = false := hA c (by simp)
    have ih2 := ih (fun d hd => hA d (by simp [hd])) (c :: acc)
    simp only [splitWsAux, hc, Bool.false_eq_true, if_false, ih2, List.reverse_cons,
      List.append_assoc, List.singleton_append]

theorem splitWs_noWs (A : Str) (hA : ∀ c ∈ A, isWs c = false) (hne : A ≠ []) :
    splitWs A = [A] := by
  unfold splitWs
  rw [splitWsAux_noWs A hA []]
  simp [hne]

theorem splitLinesAux_step_nl (cs acc : Str) :
    splitLinesAux ('\n' :: cs) acc = acc.reverse :: splitLinesAux cs [] := rfl

theorem splitLinesAux_step (a : Char) (cs acc : Str) (h1 : a ≠ '\r') (h2 : a ≠ '\n') :
    splitLinesAux (a :: cs) acc = splitLinesAux cs (a :: acc) := by
  conv_lhs => unfold splitLinesAux
  split <;> simp_all

/-- A line-break-free string contributes a single line in front of the
rest when followed by a newline. -/
theorem splitLinesAux_append_nl (B : Str) :
    ∀ (A : Str) (acc : Str), (∀ c ∈ A, c ≠ '\n' ∧ c ≠ '\r') →
      splitLinesAux (A ++ '\n' :: B) acc = (acc.reverse ++ A) :: splitLinesAux B [] := by
  intro A
  induction A with
  | nil =>
    intro acc _
    simp [splitLinesAux_step_nl]
  | cons a A ih =>
    intro acc hA
    have ha := hA a (by simp)
    have ih2 := ih (a :: acc) (fun d hd => hA d (by simp [hd]))
    simp only [List.cons_append]
    rw [splitLinesAux_step a _ acc ha.2 ha.1, ih2]
    simp

theorem splitLines_append_nl (A B : Str) (hA : ∀ c ∈ A, c ≠ '\n' ∧ c ≠ '\r') :
    splitLines (A ++ '\n' :: B) = A :: splitLines B := by
  unfold splitLines
  rw [splitLinesAux_append_nl B A [] hA]
  simp

theorem splitLinesAux_noNl (A : Str) (hA : ∀ c ∈ A, c ≠ '\n' ∧ c ≠ '\r') :
    ∀ acc : Str, splitLinesAux A acc =
      if (acc.reverse ++ A).isEmpty then [] else [acc.reverse ++ A] := by
  induction A with
  | nil =>
    intro acc
    rcases acc with _ | ⟨a, as⟩ <;> simp [splitLinesAux]
  | cons a A ih =>
    intro acc
    have ha := hA a (by simp)
    have ih2 := ih (fun d hd => hA d (by simp [hd])) (a :: acc)
    rw [splitLinesAux_step a A acc ha.2 ha.1, ih2]
    simp

theorem splitLines_noNl (A : Str) (hA : ∀ c ∈ A, c ≠ '\n' ∧ c ≠ '\r') (hne : A ≠ []) :
    splitLines A = [A] := by
  unfold splitLines
  rw [splitLinesAux_noNl A hA []]
  simp [hne]

/- ============ the numeric extractor: totality and order ============ -/

theorem parseUFloat?_isSome {t : Str} (h : matchUnsigned t = true) :
    (parseUFloat? t).isSome = true := by
  unfold matchUnsigned at h
  simp only [Bool.and_eq_true, Bool.or_eq_true, Bool.not_eq_true', beq_iff_eq] at h
  obtain ⟨hd, hrest⟩ := h
  unfold parseUFloat?
  split
  · split
    · rename_i h1 h2
      rw [hd] at h2
      cases h2
    · simp
  · rename_i hner
    rcases hrest with hre | ⟨⟨hdot, hf⟩, hr3⟩
    · exact absurd hre hner
    · rw [if_pos hdot]
      split
      · simp
      · rename_i hcond
        rw [hr3, hd, hf] at hcond
        simp at hcond

theorem parseFloat?_isSome {t : Str} (h : matchNum t = true) :
    (parseFloat? t).isSome = true := by
  unfold matchNum at h
  unfold parseFloat?
  by_cases hm : t.headD ' ' = '-'
  · rw [if_pos hm] at h ⊢
    simp [parseUFloat?_isSome h]
  · rw [if_neg hm] at h ⊢
    by_cases hp : t.headD ' ' = '+'
    · exfalso
      rcases t with _ | ⟨c, u⟩
      · exact absurd hp (by decide)
      · simp only [List.headD_cons] at hp
        subst hp
        rw [show matchUnsigned ('+' :: u) = false by
          simp [matchUnsigned, List.takeWhile_cons]] at h
        cases h
    · rw [if_neg hp]
      exact parseUFloat?_isSome h

/-- The `except ValueError: pass` branch of `parsear_valores` is dead
code: every token that passes the regex guard parses successfully, so
the result is exactly the value of every matching token, in order. -/
theorem parsear_valores_eq (linea : Str) :
    parsear_valores linea = (numTokens linea).map floatVal := by
  unfold parsear_valores numTokens
  induction splitWs (replaceCommaDot linea) with
  | nil => rfl
  | cons t ts ih =>
    by_cases h : matchNum t
    · have hs := parseFloat?_isSome h
      rcases ho : parseFloat? t with _ | v
      · rw [ho] at hs; simp at hs
      · simp [List.filterMap_cons, List.filter_cons, h, ho, ih, floatVal]
    · simp [List.filterMap_cons, List.filter_cons, h, ih]

theorem replaceCommaDot_idem (s : Str) :
    replaceCommaDot (replaceCommaDot s) = replaceCommaDot s := by
  unfold replaceCommaDot
  rw [List.map_map]
  have : ((fun c => if c = ',' then '.' else c) ∘ fun c => if c = ',' then '.' else c) =
      fun c : Char => if c = ',' then '.' else c := by
    funext c
    by_cases hc : c = ',' <;> simp [hc, Function.comp]
  rw [this]

theorem replaceCommaDot_noComma (s : Str) (h : ∀ c ∈ s, c ≠ ',') :
    replaceCommaDot s = s := by
  unfold replaceCommaDot
  induction s with
  | nil => rfl
  | cons c cs ih =>
    simp only [List.map_cons, List.cons_eq_cons]
    exact ⟨by simp [h c (by simp)], ih fun d hd => h d (by simp [hd])⟩

theorem matchNum_alpha_head {c : Char} (t : Str) (h : c.isAlpha = true) :
    matchNum (c :: t) = false := by
  have hm : c ≠ '-' := alpha_ne h '-' (by decide)
  unfold matchNum
  rw [List.headD_cons, if_neg hm]
  simp [matchUnsigned, List.takeWhile_cons, isAlpha_isDigit_false h]

/- ============ claims C1, C2, C3, C10 ============ -/

/-- C1: for every text containing a station line with at least 7
numeric tokens, the extraction used by the daily report
(`parsear_valores` followed by taking the first 7 values) yields
exactly the values of the first 7 numeric tokens of that line, in their
original left-to-right order; moreover the comma-to-point rewrite makes
a decimal-comma token (`"3,5"`) parse identically to its decimal-point
spelling (`"3.5"`). -/
theorem C1_first_seven_in_order (texto key linea : Str)
    (hfila : extraer_linea_estacion texto key = some linea)
    (h7 : 7 ≤ (numTokens linea).length) :
    (parsear_valores linea).take 7 = ((numTokens linea).take 7).map floatVal ∧
    ∀ s : Str, parsear_valores (replaceCommaDot s) = parsear_valores s := by
  constructor
  · rw [parsear_valores_eq, List.map_take]
  · intro s
    unfold parsear_valores
    rw [replaceCommaDot_idem]

/-- Witness for C1 at a concrete station line with 8 numeric tokens. -/
theorem C1_first_seven_in_order_witness :
    (parsear_valores (chars "Huelma 1 2 3,5 4 5 6 7 8")).take 7 =
      ((numTokens (chars "Huelma 1 2 3,5 4 5 6 7 8")).take 7).map floatVal ∧
    ∀ s : Str, parsear_valores (replaceCommaDot s) = parsear_valores s :=
  C1_first_seven_in_order (chars "Huelma 1 2 3,5 4 5 6 7 8") (chars "huelma")
    (chars "Huelma 1 2 3,5 4 5 6 7 8")
    (by with_unfolding_all decide) (by with_unfolding_all decide)

/-- C2: for a station row of the form `"P63 Huelma v1 v2 ..."` (an
alphabetic-headed station-code token, then the station name, then the
data), the pipeline of `extraer_linea_estacion` followed by
`parsear_valores` extracts exactly the values appearing after the
station name: the code token contributes nothing (in particular never
`63` nor any number split out of it), and the tokens after the name are
extracted unchanged. -/
theorem C2_code_token_never_value (texto key : Str) (c : Char) (ds name resto : Str)
    (hfila : extraer_linea_estacion texto key =
      some ((c :: ds) ++ ' ' :: name ++ ' ' :: resto))
    (hc : c.isAlpha = true)
    (hds : ∀ d ∈ ds, d.isDigit = true)
    (hname : name ≠ [])
    (hnameAlpha : ∀ a ∈ name, a.isAlpha = true) :
    parsear_valores ((c :: ds) ++ ' ' :: name ++ ' ' :: resto) = parsear_valores resto := by
  have hcodeNoComma : replaceCommaDot (c :: ds) = c :: ds := by
    apply replaceCommaDot_noComma
    intro x hx
    rcases List.mem_cons.mp hx with rfl | hx
    · exact alpha_ne hc ',' (by decide)
    · exact digit_ne (hds x hx) ',' (by decide)
  have hnameNoComma : replaceCommaDot name = name := by
    apply replaceCommaDot_noComma
    intro x hx
    exact alpha_ne (hnameAlpha x hx) ',' (by decide)
  have hcodeTok : splitWs (c :: ds) = [c :: ds] := by
    apply splitWs_noWs
    · intro x hx
      rcases List.mem_cons.mp hx with rfl | hx
      · exact alpha_isWs_false hc
      · exact digit_isWs_false (hds x hx)
    · simp
  have hnameTok : splitWs name = [name] := by
    refine splitWs_noWs name (fun x hx => alpha_isWs_false (hnameAlpha x hx)) hname
  have hdsNoComma : replaceCommaDot ds = ds :=
    replaceCommaDot_noComma _ (fun x hx => digit_ne (hds x hx) ',' (by decide))
  have hcne : c ≠ ',' := alpha_ne hc ',' (by decide)
  unfold parsear_valores
  rw [show replaceCommaDot ((c :: ds) ++ ' ' :: name ++ ' ' :: resto) =
      (c :: ds) ++ ' ' :: (name ++ ' ' :: replaceCommaDot resto) by
    unfold replaceCommaDot at hdsNoComma hnameNoComma ⊢
    simp [hdsNoComma, hnameNoComma, hcne]]
  rw [show splitWs ((c :: ds) ++ ' ' :: (name ++ ' ' :: replaceCommaDot resto)) =
      splitWs (c :: ds) ++ splitWs (name ++ ' ' :: replaceCommaDot resto) from
    splitWsAux_append_space _ (c :: ds) []]
  rw [show splitWs (name ++ ' ' :: replaceCommaDot resto) =
      splitWs name ++ splitWs (replaceCommaDot resto) from
    splitWsAux_append_space _ name []]
  rw [hcodeTok, hnameTok]
  rcases name with _ | ⟨n0, nr⟩
  · exact absurd rfl hname
  · have hn0 : n0.isAlpha = true := hnameAlpha n0 (by simp)
    simp [List.filterMap_append, matchNum_alpha_head _ hc, matchNum_alpha_head _ hn0]

/-- Witness for C2 at the concrete row `"P63 Huelma 63 1,0"`: the
output is exactly the parse of `"63 1,0"`. -/
theorem C2_code_token_never_value_witness :
    parsear_valores (('P' :: chars "63") ++ ' ' :: chars "Huelma" ++ ' ' :: chars "63 1,0") =
      parsear_valores (chars "63 1,0") :=
  C2_code_token_never_value (chars "P63 Huelma 63 1,0") (chars "Huelma") 'P'
    (chars "63") (chars "Huelma") (chars "63 1,0")
    (by with_unfolding_all decide) (by with_unfolding_all decide)
    (by with_unfolding_all decide) (by with_unfolding_all decide)
    (by with_unfolding_all decide)

/-- C3: for a text made of a station line followed by a further line,
locating the first station returns exactly the (stripped) first line:
no character — hence no token — of the second station's line appears in
the result. -/
theorem C3_no_row_bleed (lineA lineB key : Str)
    (hA : ∀ c ∈ lineA, c ≠ '\n' ∧ c ≠ '\r')
    (hkey : esSubcadena (lowerStr key) (lowerStr lineA) = true) :
    extraer_linea_estacion (lineA ++ '\n' :: lineB) key = some (pyStrip lineA) := by
  unfold extraer_linea_estacion
  rw [splitLines_append_nl lineA lineB hA]
  have hfind : List.find? (fun linea => esSubcadena (lowerStr key) (lowerStr linea))
      (lineA :: splitLines lineB) = some lineA := by
    rw [List.find?_cons_of_pos]
    exact hkey
  rw [hfind]

/-- Witness for C3 at the two consecutive station rows of the spec. -/
theorem C3_no_row_bleed_witness :
    extraer_linea_estacion
      (chars "P10 StationA 1,0 2,0" ++ '\n' :: chars "P20 StationB 3,0 4,0")
      (chars "StationA") = some (pyStrip (chars "P10 StationA 1,0 2,0")) :=
  C3_no_row_bleed (chars "P10 StationA 1,0 2,0") (chars "P20 StationB 3,0 4,0")
    (chars "StationA") (by with_unfolding_all decide) (by with_unfolding_all decide)

/-- C10: every whitespace-delimited token that fully matches the
numeric regex after the comma-to-point rewrite parses successfully, so
the `except ValueError` branch of `parsear_valores` is unreachable and
the function is total: its output is exactly the value of every
matching token, in order. -/
theorem C10_regex_tokens_always_parse :
    (∀ linea : Str, parsear_valores linea = (numTokens linea).map floatVal) ∧
    ∀ t : Str, matchNum t = true → (parseFloat? t).isSome = true :=
  ⟨parsear_valores_eq, fun _ h => parseFloat?_isSome h⟩

/-- Witness for C10 at a concrete line and a concrete matching token. -/
theorem C10_regex_tokens_always_parse_witness :
    parsear_valores (chars "1,5 x -2") = (numTokens (chars "1,5 x -2")).map floatVal ∧
    (parseFloat? (chars "3.5")).isSome = true :=
  ⟨C10_regex_tokens_always_parse.1 (chars "1,5 x -2"),
    C10_regex_tokens_always_parse.2 (chars "3.5") (by with_unfolding_all decide)⟩

/- ============ timestamp lemmas and claims C7, C8 ============ -/

theorem matchTsAt_noSlash {prev : Option Char} {s : Str} (h : '/' ∉ s) :
    matchTsAt prev s = none := by
  unfold matchTsAt
  split
  · exfalso
    apply h
    simp
  · rfl

theorem searchTs_noSlash (s : Str) (h : '/' ∉ s) : ∀ prev, searchTs prev s = none := by
  induction s with
  | nil => intro prev; rfl
  | cons c cs ih =>
    intro prev
    unfold searchTs
    rw [matchTsAt_noSlash h]
    exact ih (fun hm => h (List.mem_cons_of_mem c hm)) (some c)

/-- A text without the `/` separator contains no `TS_RE` match, so the
timestamp locator reports absence (rather than raising). -/
theorem extraer_timestamp_none (texto : Str) (h : '/' ∉ texto) :
    extraer_timestamp texto = none := by
  unfold extraer_timestamp
  rw [searchTs_noSlash texto h none]

/-- C7: when the first `TS_RE` match of the text carries a two-digit
year, `extraer_timestamp` rewrites the year field to `2000 + yy`,
leaving day, month and hour untouched. -/
theorem C7_two_digit_year_normalized (texto : Str) (d1 d2 m1 m2 y1 y2 : Char) (hora : Str)
    (hs : searchTs none texto = some ([d1, d2, '/', m1, m2, '/', y1, y2], hora))
    (hdig : ∀ x ∈ [d1, d2, m1, m2, y1, y2], x.isDigit = true) :
    extraer_timestamp texto =
      some (d1 :: d2 :: '/' :: m1 :: m2 :: '/' ::
        (natToChars (2000 + digitsToNat [y1, y2]) ++ ' ' :: hora)) := by
  have h1 : d1 ≠ '/' := digit_ne (hdig d1 (by simp)) '/' (by decide)
  have h2 : d2 ≠ '/' := digit_ne (hdig d2 (by simp)) '/' (by decide)
  have h3 : m1 ≠ '/' := digit_ne (hdig m1 (by simp)) '/' (by decide)
  have h4 : m2 ≠ '/' := digit_ne (hdig m2 (by simp)) '/' (by decide)
  have h5 : y1 ≠ '/' := digit_ne (hdig y1 (by simp)) '/' (by decide)
  have h6 : y2 ≠ '/' := digit_ne (hdig y2 (by simp)) '/' (by decide)
  have hsplit : splitOn '/' [d1, d2, '/', m1, m2, '/', y1, y2] =
      [[d1, d2], [m1, m2], [y1, y2]] := by
    unfold splitOn
    simp [splitOnAux, h1, h2, h3, h4, h5, h6]
  unfold extraer_timestamp
  rw [hs]
  simp only [hsplit, normalizar_fecha_ddmmyy_a_ddmmyyyy]
  norm_num

/-- Witness for C7: `"26/01/26 18:13"` is normalized to year 2026. -/
theorem C7_two_digit_year_normalized_witness :
    extraer_timestamp (chars "26/01/26 18:13") = some (chars "26/01/2026 18:13") := by
  rw [C7_two_digit_year_normalized (chars "26/01/26 18:13") '2' '6' '0' '1' '2' '6'
    (chars "18:13") (by decide) (by decide)]
  decide

/-- C8 (amended): the timestamp locator returns the leftmost `TS_RE`
occurrence; whatever follows — including a later occurrence introduced
by an "Actualizado" hint — cannot change the result. -/
theorem C8_leftmost_match_wins (resto : Str) :
    extraer_timestamp (chars "01/02/2023 10:00 " ++ resto) =
      some (chars "01/02/2023 10:00") := rfl

/-- Counterexample to C8 as stated: in a text with an early bare match
and a later hinted one, the locator does not return the hinted
occurrence. -/
theorem C8_hint_not_preferred_cex :
    extraer_timestamp (chars "01/02/2023 10:00 Actualizado: 28/12/2025 09:05") ≠
      some (chars "28/12/2025 09:05") := by decide

/- ============ formatter structure lemmas ============ -/

/-- A string free of line breaks. -/
def noNl (s : Str) : Prop := ∀ c ∈ s, c ≠ '\n' ∧ c ≠ '\r'

/-- The line-break freedom of an optional timestamp. -/
def tsNoNl : Option Str → Prop
  | none => True
  | some t => noNl t

theorem natToCharsAux_digits (fuel n : Nat) :
    ∀ c ∈ natToCharsAux fuel n, c.isDigit = true := by
  induction fuel generalizing n with
  | zero => intro c hc; simp [natToCharsAux] at hc
  | succ fuel ih =>
    intro c hc
    rw [natToCharsAux] at hc
    by_cases h : n < 10
    · simp [h] at hc
      subst hc
      unfold digitChar
      interval_cases n <;> decide
    · simp [h] at hc
      rcases hc with hc | hc
      · exact ih _ c hc
      · subst hc
        unfold digitChar
        have h10 : n % 10 < 10 := Nat.mod_lt _ (by omega)
        interval_cases hh : n % 10 <;> decide

theorem natToChars_digits (n : Nat) : ∀ c ∈ natToChars n, c.isDigit = true :=
  natToCharsAux_digits (n + 1) n

theorem digit_noNl {c : Char} (h : c.isDigit = true) : c ≠ '\n' ∧ c ≠ '\r' :=
  ⟨digit_ne h '\n' (by decide), digit_ne h '\r' (by decide)⟩

/-- Line-break freedom follows from a decidable scan (used for string
literals via `decide`). -/
theorem noNl_ofBool {l : Str}
    (h : (l.all fun c => !(c == '\n') && !(c == '\r')) = true) : noNl l := by
  intro c hc
  have h2 := List.all_eq_true.mp h c hc
  simp only [Bool.and_eq_true, Bool.not_eq_true', beq_eq_false_iff_ne] at h2
  exact h2

theorem fmt1_chars (q : ℚ) : ∀ c ∈ fmt1 q, c = '-' ∨ c = '.' ∨ c.isDigit = true := by
  intro c hc
  unfold fmt1 at hc
  rcases List.mem_append.mp hc with h1 | h2
  · left
    by_cases hq : q < 0
    · rw [if_pos hq] at h1; simpa using h1
    · rw [if_neg hq] at h1; simp at h1
  · rcases List.mem_append.mp h2 with h3 | h4
    · right; right; exact natToChars_digits _ c h3
    · rcases List.mem_cons.mp h4 with h5 | h6
      · right; left; exact h5
      · right; right; exact natToChars_digits _ c h6

theorem fmt1_noNl (q : ℚ) : noNl (fmt1 q) := by
  intro c hc
  rcases fmt1_chars q c hc with h | h | h
  · subst h; exact ⟨by decide, by decide⟩
  · subst h; exact ⟨by decide, by decide⟩
  · exact digit_noNl h

theorem pad2_digits (n : Nat) : ∀ c ∈ pad2 n, c.isDigit = true := by
  intro c hc
  unfold pad2 at hc
  by_cases h : n < 10
  · rw [if_pos h] at hc
    rcases List.mem_cons.mp hc with hc | hc
    · subst hc; decide
    · exact natToChars_digits n c hc
  · rw [if_neg h] at hc
    exact natToChars_digits n c hc

theorem pad4_digits (n : Nat) : ∀ c ∈ pad4 n, c.isDigit = true := by
  intro c hc
  unfold pad4 at hc
  rcases List.mem_append.mp hc with hc | hc
  · rw [List.eq_of_mem_replicate hc]; decide
  · exact natToChars_digits n c hc

theorem noNl_append {a b : Str} (ha : noNl a) (hb : noNl b) : noNl (a ++ b) := by
  intro c hc
  rcases List.mem_append.mp hc with h | h
  · exact ha c h
  · exact hb c h

theorem noNl_cons {c0 : Char} {b : Str} (h1 : c0 ≠ '\n' ∧ c0 ≠ '\r') (hb : noNl b) :
    noNl (c0 :: b) := by
  intro c hc
  rcases List.mem_cons.mp hc with rfl | h
  · exact h1
  · exact hb c h

theorem noNl_digits {l : Str} (h : ∀ c ∈ l, c.isDigit = true) : noNl l :=
  fun c hc => digit_noNl (h c hc)

theorem strftimeDMY_noNl (f : Fecha) : noNl (strftimeDMY f) := by
  unfold strftimeDMY
  repeat
    first
    | exact noNl_digits (pad2_digits _)
    | exact noNl_digits (pad4_digits _)
    | exact ⟨by decide, by decide⟩
    | apply noNl_append
    | apply noNl_cons

theorem bulletLinea_noNl (lab : Str) (v : ℚ) (hlab : noNl lab) :
    noNl (bulletLinea lab v) := by
  unfold bulletLinea
  repeat
    first
    | exact hlab
    | exact fmt1_noNl v
    | exact noNl_ofBool (by decide)
    | apply noNl_append
    | apply noNl_cons

theorem bulletLinea_cons (lab : Str) (v : ℚ) :
    bulletLinea lab v = '•' :: (' ' :: (lab ++ (chars ": *" ++ (fmt1 v ++ chars "* mm")))) := by
  unfold bulletLinea
  rw [show chars "• " = ['•', ' '] from rfl]
  simp

theorem esBala_bulletLinea (lab : Str) (v : ℚ) : esBala (bulletLinea lab v) = true := by
  rw [bulletLinea_cons]
  rfl

theorem cabeceraSemanal_cons (ts : Option Str) :
    ∃ r, cabeceraSemanal ts = '📄' :: r := by
  unfold cabeceraSemanal
  rcases ts with _ | t
  · exact ⟨_, rfl⟩
  · by_cases he : t.isEmpty <;> simp only [he, if_true, if_false] <;> exact ⟨_, rfl⟩

theorem cabeceraSemanal_noNl (ts : Option Str) (hts : tsNoNl ts) :
    noNl (cabeceraSemanal ts) := by
  unfold cabeceraSemanal
  rcases ts with _ | t
  · exact noNl_ofBool (by decide)
  · by_cases he : t.isEmpty <;> simp only [he, if_true, if_false] <;>
      repeat
        first
        | exact hts
        | exact noNl_ofBool (by decide)
        | exact ⟨by decide, by decide⟩
        | apply noNl_append
        | apply noNl_cons

theorem hdrHoy_cons (ts : Option Str) : ∃ r, hdrHoy ts = '📄' :: r := by
  unfold hdrHoy
  rcases ts with _ | t
  · exact ⟨_, rfl⟩
  · by_cases he : t.isEmpty <;> simp only [he, if_true, if_false] <;> exact ⟨_, rfl⟩

theorem hdrHoy_noNl (ts : Option Str) (hts : tsNoNl ts) : noNl (hdrHoy ts) := by
  unfold hdrHoy
  rcases ts with _ | t
  · exact noNl_ofBool (by decide)
  · by_cases he : t.isEmpty <;> simp only [he, if_true, if_false] <;>
      repeat
        first
        | exact hts
        | exact noNl_ofBool (by decide)
        | exact ⟨by decide, by decide⟩
        | apply noNl_append
        | apply noNl_cons

/-- `strip()` of a string with a non-whitespace head and body ending in
a non-whitespace character followed by one newline removes exactly that
newline. -/
theorem pyStrip_eq (h0 b : Char) (x : Str) (hh0 : isWs h0 = false) (hb : isWs b = false) :
    pyStrip (h0 :: (x ++ [b, '\n'])) = h0 :: (x ++ [b]) := by
  unfold pyStrip
  have h1 : List.dropWhile isWs (h0 :: (x ++ [b, '\n'])) = h0 :: (x ++ [b, '\n'])
    := by rw [List.dropWhile_cons, hh0]; simp
  rw [h1]
  have h2 : (h0 :: (x ++ [b, '\n'])).reverse = '\n' :: b :: (h0 :: x).reverse := by simp
  rw [h2]
  have h3 : List.dropWhile isWs ('\n' :: b :: (h0 :: x).reverse) = b :: (h0 :: x).reverse := by
    rw [List.dropWhile_cons, show isWs '\n' = true from rfl]
    simp [List.dropWhile_cons, hb]
  rw [h3]
  simp

theorem splitLines_cons_nl (x : Str) : splitLines ('\n' :: x) = [] :: splitLines x :=
  splitLines_append_nl [] x (by simp)

/-- The lines of a run of newline-terminated, break-free bodies
followed by a remainder. -/
theorem splitLines_flat (bodies : List Str) (resto : Str) (hb : ∀ b ∈ bodies, noNl b) :
    splitLines ((bodies.map (· ++ ['\n'])).flatten ++ resto) = bodies ++ splitLines resto := by
  induction bodies with
  | nil => simp
  | cons b bs ih =>
    simp only [List.map_cons, List.flatten_cons, List.append_assoc, List.singleton_append,
      List.cons_append, List.nil_append]
    rw [splitLines_append_nl _ _ (hb b (by simp))]
    rw [ih (fun x hx => hb x (by simp [hx]))]

theorem chars_acum_headD : (chars "*Acumulados:*").headD ' ' = '*' := rfl

theorem bulletLinea_ne_acum (lab : Str) (v : ℚ) :
    (bulletLinea lab v == chars "*Acumulados:*") = false := by
  rw [beq_eq_false_iff_ne, bulletLinea_cons]
  intro he
  have h2 : ('•' :: (' ' :: (lab ++ (chars ": *" ++ (fmt1 v ++ chars "* mm"))))).headD ' ' =
      (chars "*Acumulados:*").headD ' ' := by rw [he]
  rw [List.headD_cons, chars_acum_headD] at h2
  exact absurd h2 (by decide)

theorem cons_ne_acum {r : Str} : (('📄' :: r) == chars "*Acumulados:*") = false := by
  rw [beq_eq_false_iff_ne]
  intro he
  have h2 : ('📄' :: r).headD ' ' = (chars "*Acumulados:*").headD ' ' := by rw [he]
  rw [List.headD_cons, chars_acum_headD] at h2
  exact absurd h2 (by decide)

theorem esBala_cons {r : Str} : esBala ('📄' :: r) = false := rfl

/-- Counting bullet lines before and from the `*Acumulados:*` caption,
given the line decomposition of a weekly report. -/
theorem counts_of_split (out hdr : Str) (daily : List Str) (bM bA : Str)
    (hsplit : splitLines out = hdr :: chars "*Huelma – lluvia diaria (mm):*" ::
      (daily ++ [] :: chars "*Acumulados:*" :: bM :: [bA]))
    (hhdr1 : esBala hdr = false) (hhdr2 : (hdr == chars "*Acumulados:*") = false)
    (hdaily : ∀ d ∈ daily, esBala d = true ∧ (d == chars "*Acumulados:*") = false)
    (hbM : esBala bM = true) (hbA : esBala bA = true) :
    lineasDiarias out = daily.length ∧ lineasTotales out = 2 := by
  unfold lineasDiarias lineasTotales
  rw [hsplit]
  have hp1 : (!(hdr == chars "*Acumulados:*")) = true := by rw [hhdr2]; rfl
  have hL1 : (!((chars "*Huelma – lluvia diaria (mm):*") == chars "*Acumulados:*")) = true := by
    decide
  have hd2 : ∀ d ∈ daily, (!(d == chars "*Acumulados:*")) = true := by
    intro d hd
    rw [(hdaily d hd).2]
    rfl
  have hnil : (!(([] : Str) == chars "*Acumulados:*")) = true := by decide
  have hstop : (!((chars "*Acumulados:*") == chars "*Acumulados:*")) = false := by decide
  constructor
  · rw [List.takeWhile_cons, hp1]
    simp only [if_true]
    rw [List.takeWhile_cons, hL1]
    simp only [if_true]
    rw [List.takeWhile_append_of_pos hd2]
    rw [List.takeWhile_cons, hnil]
    simp only [if_true]
    rw [List.takeWhile_cons, hstop]
    simp only [Bool.false_eq_true, if_false]
    simp only [List.filter_cons, hhdr1, Bool.false_eq_true, if_false,
      show esBala (chars "*Huelma – lluvia diaria (mm):*") = false from rfl,
      List.filter_append, show esBala ([] : Str) = false from rfl]
    rw [List.filter_eq_self.mpr (fun d hd => (hdaily d hd).1)]
    simp
  · rw [List.dropWhile_cons, hp1]
    simp only [if_true]
    rw [List.dropWhile_cons, hL1]
    simp only [if_true]
    rw [List.dropWhile_append_of_pos hd2]
    rw [List.dropWhile_cons, hnil]
    simp only [if_true]
    rw [List.dropWhile_cons, hstop]
    simp only [Bool.false_eq_true, if_false]
    simp only [List.filter_cons, show esBala (chars "*Acumulados:*") = false from rfl,
      Bool.false_eq_true, if_false, hbM, hbA, if_true]
    rfl

/-- The line decomposition of the weekly message body before
stripping: header, caption, the value lines, a blank line, the totals
caption, the month line, and whatever remains. -/
theorem splitLines_cuerpo_raw (hdr BM BA : Str) (bodies : List Str)
    (hhdr : noNl hdr) (hbodies : ∀ b ∈ bodies, noNl b) (hBM : noNl BM) :
    splitLines (hdr ++ '\n' :: (chars "*Huelma – lluvia diaria (mm):*" ++ '\n' ::
      ((bodies.map (· ++ ['\n'])).flatten ++ ('\n' :: (chars "*Acumulados:*" ++ '\n' ::
        ((BM ++ ['\n']) ++ BA)))))) =
    hdr :: chars "*Huelma – lluvia diaria (mm):*" ::
      (bodies ++ [] :: chars "*Acumulados:*" :: BM :: splitLines BA) := by
  rw [splitLines_append_nl _ _ hhdr]
  rw [splitLines_append_nl _ _ (noNl_ofBool (by decide))]
  rw [splitLines_flat _ _ hbodies]
  rw [splitLines_cons_nl]
  rw [splitLines_append_nl _ _ (noNl_ofBool (by decide))]
  rw [show (BM ++ ['\n']) ++ BA = BM ++ '\n' :: BA by simp]
  rw [splitLines_append_nl _ _ hBM]

/-- `strip()` of the weekly message: the head is not whitespace and the
body ends in the hydrological-year line, which ends in `m`, so exactly
the final newline goes. -/
theorem pyStrip_cuerpo (hd0 : Char) (hdr R BM Bpre : Str) (hws : isWs hd0 = false) :
    pyStrip ((hd0 :: hdr) ++ '\n' :: (R ++ ((BM ++ ['\n']) ++ ((Bpre ++ ['m']) ++ ['\n']))))
      = (hd0 :: hdr) ++ '\n' :: (R ++ ((BM ++ ['\n']) ++ (Bpre ++ ['m']))) := by
  have h1 : (hd0 :: hdr) ++ '\n' :: (R ++ ((BM ++ ['\n']) ++ ((Bpre ++ ['m']) ++ ['\n'])))
      = hd0 :: ((hdr ++ '\n' :: (R ++ ((BM ++ ['\n']) ++ Bpre))) ++ ['m', '\n']) := by
    simp [List.append_assoc]
  have h2 : hd0 :: ((hdr ++ '\n' :: (R ++ ((BM ++ ['\n']) ++ Bpre))) ++ ['m'])
      = (hd0 :: hdr) ++ '\n' :: (R ++ ((BM ++ ['\n']) ++ (Bpre ++ ['m']))) := by
    simp [List.append_assoc]
  rw [h1, pyStrip_eq hd0 'm' _ hws (by decide), h2]

theorem mem_zipWith {α β γ : Type} {f : α → β → γ} {l1 : List α} {l2 : List β} {c : γ}
    (h : c ∈ List.zipWith f l1 l2) : ∃ x ∈ l1, ∃ y ∈ l2, c = f x y := by
  induction l1 generalizing l2 with
  | nil => simp at h
  | cons x xs ih =>
    rcases l2 with _ | ⟨y, ys⟩
    · simp at h
    · rcases List.mem_cons.mp h with rfl | h2
      · exact ⟨x, by simp, y, by simp, rfl⟩
      · obtain ⟨x', hx', y', hy', he⟩ := ih h2
        exact ⟨x', by simp [hx'], y', by simp [hy'], he⟩

/-- The lines of a successfully rendered weekly report: the header
line, the caption, one bullet line per `(label, value)` pair, a blank
line, the totals caption, and the two total lines. -/
theorem cuerpoSemanal_splitLines (hd0 : Char) (hdr : Str) (etiquetas : List Str)
    (lluvias : List ℚ) (m a : ℚ)
    (hws : isWs hd0 = false)
    (hnl : noNl (hd0 :: hdr))
    (hlab : ∀ f ∈ etiquetas, noNl f) :
    splitLines (cuerpoSemanal (hd0 :: hdr) etiquetas lluvias (some m) (some a)) =
      (hd0 :: hdr) :: chars "*Huelma – lluvia diaria (mm):*" ::
        (List.zipWith bulletLinea etiquetas lluvias ++
          [] :: chars "*Acumulados:*" :: bulletLinea (chars "Mes actual") m ::
            [bulletLinea (chars "Año hidrológico") a]) := by
  obtain ⟨Bpre, hB⟩ : ∃ p, bulletLinea (chars "Año hidrológico") a = p ++ ['m'] := by
    refine ⟨chars "• " ++ chars "Año hidrológico" ++ chars ": *" ++ fmt1 a ++ chars "* m", ?_⟩
    unfold bulletLinea
    rw [show chars "* mm" = chars "* m" ++ ['m'] from rfl]
    simp [List.append_assoc]
  have hzip : List.zipWith (fun f v => bulletLinea f v ++ ['\n']) etiquetas lluvias
      = (List.zipWith bulletLinea etiquetas lluvias).map (· ++ ['\n']) :=
    (List.map_zipWith (· ++ ['\n']) bulletLinea etiquetas lluvias).symm
  unfold cuerpoSemanal
  dsimp only
  rw [hzip, hB]
  set J := ((List.zipWith bulletLinea etiquetas lluvias).map (· ++ ['\n'])).flatten with hJ
  set BM := bulletLinea (chars "Mes actual") m with hBM
  set L1 := chars "*Huelma – lluvia diaria (mm):*" with hL1
  set L2 := chars "*Acumulados:*" with hL2
  have hre : L1 ++ '\n' :: (J ++ ('\n' :: (L2 ++ '\n' ::
      ((BM ++ ['\n']) ++ ((Bpre ++ ['m']) ++ ['\n'])))))
      = (L1 ++ '\n' :: (J ++ ('\n' :: (L2 ++ ['\n'])))) ++
        ((BM ++ ['\n']) ++ ((Bpre ++ ['m']) ++ ['\n'])) := by
    simp [List.append_assoc]
  rw [hre, pyStrip_cuerpo hd0 hdr _ BM Bpre hws]
  have hre2 : (L1 ++ '\n' :: (J ++ ('\n' :: (L2 ++ ['\n'])))) ++ ((BM ++ ['\n']) ++ (Bpre ++ ['m']))
      = L1 ++ '\n' :: (J ++ ('\n' :: (L2 ++ '\n' :: ((BM ++ ['\n']) ++ (Bpre ++ ['m']))))) := by
    simp [List.append_assoc]
  rw [hre2, ← hB, hJ, hL1, hL2]
  rw [splitLines_cuerpo_raw _ _ _ _ hnl
    (by
      intro b hb
      obtain ⟨f, hf, v, _, rfl⟩ := mem_zipWith hb
      exact bulletLinea_noNl f v (hlab f hf))
    (bulletLinea_noNl _ _ (noNl_ofBool (by decide)))]
  rw [splitLines_noNl _ (bulletLinea_noNl _ _ (noNl_ofBool (by decide)))
    (by rw [bulletLinea_cons]; simp)]

theorem esFalsy_some_false {l : Str} (hl : l ≠ []) : esFalsy (some l) = false := by
  rcases l with _ | ⟨c, cs⟩
  · exact absurd rfl hl
  · rfl

/-- The weekly formatter's rejection branch: fewer than 7 values. -/
theorem semanal_pocos (ts : Option Str) (fcs : Option (List Str)) (l hoy : Str)
    (hl : l ≠ []) (h7 : (parsear_valores l).length < 7) :
    formatear_semanal ts fcs (some l) hoy =
      some (cabeceraSemanal ts ++
        chars "\n\nNo hay suficientes valores para mostrar la semana.") := by
  unfold formatear_semanal
  dsimp only
  rw [esFalsy_some_false hl]
  simp only [Bool.false_eq_true, if_false, Option.getD_some]
  rw [if_pos h7]

/-- The weekly formatter's count-reporting diagnostic: at least two
recovered columns demand more values than the row yields. -/
theorem semanal_diag (ts : Option Str) (fc : List Str) (l hoy : Str)
    (hl : l ≠ []) (h2 : 2 ≤ fc.length) (h7 : 7 ≤ (parsear_valores l).length)
    (hn : (parsear_valores l).length < fc.length) :
    formatear_semanal ts (some fc) (some l) hoy =
      some (cabeceraSemanal ts ++ chars "\n\nNo hay suficientes valores diarios (" ++
        natToChars (parsear_valores l).length ++ chars ") para " ++
        natToChars fc.length ++ chars " columnas del PDF.") := by
  unfold formatear_semanal
  dsimp only
  rw [esFalsy_some_false hl]
  simp only [Bool.false_eq_true, if_false, Option.getD_some]
  rw [if_neg (not_lt.mpr h7)]
  have ha : arityReq (some fc) = fc.length := by
    unfold arityReq fechasRec
    dsimp only
    rw [if_pos h2]
  rw [ha, if_pos hn]

/-- The weekly formatter's rendering branch with recovered columns. -/
theorem semanal_exito_fc (ts : Option Str) (fc : List Str) (l hoy : Str)
    (hl : l ≠ []) (h2 : 2 ≤ fc.length) (h7 : 7 ≤ (parsear_valores l).length)
    (hn : fc.length ≤ (parsear_valores l).length) :
    formatear_semanal ts (some fc) (some l) hoy =
      some (cuerpoSemanal (cabeceraSemanal ts) fc ((parsear_valores l).take fc.length)
        ((parsear_valores l).get? ((parsear_valores l).length - 2))
        ((parsear_valores l).get? ((parsear_valores l).length - 1))) := by
  unfold formatear_semanal
  dsimp only
  rw [esFalsy_some_false hl]
  simp only [Bool.false_eq_true, if_false, Option.getD_some]
  rw [if_neg (not_lt.mpr h7)]
  have ha : arityReq (some fc) = fc.length := by
    unfold arityReq fechasRec
    dsimp only
    rw [if_pos h2]
  rw [ha, if_neg (not_lt.mpr hn)]
  have hf : fechasRec (some fc) = some fc := by
    unfold fechasRec
    dsimp only
    rw [if_pos h2]
  rw [hf]
  rw [if_pos (by omega : 2 ≤ (parsear_valores l).length)]
  rw [if_pos (by omega : 1 ≤ (parsear_valores l).length)]

/-- The weekly formatter's rendering branch with synthesized labels:
no usable recovered columns, timestamp date parses. -/
theorem semanal_exito_fallback (ts : Option Str) (fcs : Option (List Str)) (l hoy : Str)
    (endDate : Fecha)
    (hl : l ≠ []) (h7 : 7 ≤ (parsear_valores l).length)
    (hfcs : fechasRec fcs = none)
    (hstrp : strptimeDMY? (fecha_de_timestamp ts hoy) = some endDate) :
    formatear_semanal ts fcs (some l) hoy =
      some (cuerpoSemanal (cabeceraSemanal ts)
        ((List.range 7).map fun i => strftimeDMY (restarDias endDate i))
        ((parsear_valores l).take 7)
        ((parsear_valores l).get? ((parsear_valores l).length - 2))
        ((parsear_valores l).get? ((parsear_valores l).length - 1))) := by
  unfold formatear_semanal
  dsimp only
  rw [esFalsy_some_false hl]
  simp only [Bool.false_eq_true, if_false, Option.getD_some]
  rw [if_neg (not_lt.mpr h7)]
  have ha : arityReq fcs = 7 := by
    unfold arityReq
    rw [hfcs]
  rw [ha, if_neg (not_lt.mpr h7), hfcs, hstrp]
  rw [if_pos (by omega : 2 ≤ (parsear_valores l).length)]
  rw [if_pos (by omega : 1 ≤ (parsear_valores l).length)]

/-- `strip()` of the daily message: analogous to `pyStrip_cuerpo`. -/
theorem pyStrip_hoy (hd0 : Char) (hdr R Bpre : Str) (hws : isWs hd0 = false) :
    pyStrip ((hd0 :: hdr) ++ '\n' :: (R ++ ((Bpre ++ ['m']) ++ ['\n'])))
      = (hd0 :: hdr) ++ '\n' :: (R ++ (Bpre ++ ['m'])) := by
  have h1 : (hd0 :: hdr) ++ '\n' :: (R ++ ((Bpre ++ ['m']) ++ ['\n']))
      = hd0 :: ((hdr ++ '\n' :: (R ++ Bpre)) ++ ['m', '\n']) := by
    simp [List.append_assoc]
  have h2 : hd0 :: ((hdr ++ '\n' :: (R ++ Bpre)) ++ ['m'])
      = (hd0 :: hdr) ++ '\n' :: (R ++ (Bpre ++ ['m'])) := by
    simp [List.append_assoc]
  rw [h1, pyStrip_eq hd0 'm' _ hws (by decide), h2]

/-- The line decomposition of the daily message body. -/
theorem splitLines_hoy_raw (hdr : Str) (bodies6 : List Str) (B7 : Str)
    (hhdr : noNl hdr) (hb : ∀ b ∈ bodies6, noNl b) (hB7 : noNl B7) (hB7ne : B7 ≠ []) :
    splitLines (hdr ++ '\n' :: (chars "*Huelma*:" ++ '\n' ::
      ((bodies6.map (· ++ ['\n'])).flatten ++ B7)))
      = hdr :: chars "*Huelma*:" :: (bodies6 ++ [B7]) := by
  rw [splitLines_append_nl _ _ hhdr]
  rw [splitLines_append_nl _ _ (noNl_ofBool (by decide))]
  rw [splitLines_flat _ _ hb]
  rw [splitLines_noNl _ hB7 hB7ne]

theorem take7_explicit {vs : List ℚ} (h : 7 ≤ vs.length) :
    ∃ v1 v2 v3 v4 v5 v6 v7, vs.take 7 = [v1, v2, v3, v4, v5, v6, v7] := by
  rcases vs with _ | ⟨v1, vs⟩
  · simp at h
  rcases vs with _ | ⟨v2, vs⟩
  · simp at h
  rcases vs with _ | ⟨v3, vs⟩
  · simp at h
  rcases vs with _ | ⟨v4, vs⟩
  · simp at h
  rcases vs with _ | ⟨v5, vs⟩
  · simp at h
  rcases vs with _ | ⟨v6, vs⟩
  · simp at h
  rcases vs with _ | ⟨v7, vs⟩
  · simp at h
  exact ⟨v1, v2, v3, v4, v5, v6, v7, by simp⟩

/-- The lines of a successfully rendered daily report: the header line,
the station caption, and the seven labelled value lines. -/
theorem hoy_splitLines (ts : Option Str) (l : Str) (hts : tsNoNl ts) (hl : l ≠ [])
    (h7 : 7 ≤ (parsear_valores l).length) :
    splitLines (formatear_hoy ts (some l)) =
      hdrHoy ts :: chars "*Huelma*:" ::
        List.zipWith bulletLinea etiquetasHoy ((parsear_valores l).take 7) := by
  obtain ⟨v1, v2, v3, v4, v5, v6, v7, hvs⟩ := take7_explicit h7
  obtain ⟨r, hr⟩ := hdrHoy_cons ts
  have hnl : noNl ('📄' :: r) := hr ▸ hdrHoy_noNl ts hts
  unfold formatear_hoy
  dsimp only
  rw [esFalsy_some_false hl]
  simp only [Bool.false_eq_true, if_false, Option.getD_some]
  rw [if_pos h7, hvs, hr]
  obtain ⟨Bpre, hB⟩ : ∃ p,
      bulletLinea (chars "Año hidrológico (actual)") v7 = p ++ ['m'] := by
    refine ⟨chars "• " ++ chars "Año hidrológico (actual)" ++ chars ": *" ++ fmt1 v7 ++
      chars "* m", ?_⟩
    unfold bulletLinea
    rw [show chars "* mm" = chars "* m" ++ ['m'] from rfl]
    simp [List.append_assoc]
  have hzip : List.zipWith (fun lab v => bulletLinea lab v ++ ['\n']) etiquetasHoy
      [v1, v2, v3, v4, v5, v6, v7]
      = (List.zipWith bulletLinea etiquetasHoy [v1, v2, v3, v4, v5, v6, v7]).map
          (· ++ ['\n']) :=
    (List.map_zipWith (· ++ ['\n']) bulletLinea etiquetasHoy _).symm
  rw [hzip]
  have hexp : List.zipWith bulletLinea etiquetasHoy [v1, v2, v3, v4, v5, v6, v7] =
      [bulletLinea (chars "Hora (actual)") v1, bulletLinea (chars "Hora (anterior)") v2,
       bulletLinea (chars "Día (actual)") v3, bulletLinea (chars "Día (anterior)") v4,
       bulletLinea (chars "Mes (actual)") v5, bulletLinea (chars "Mes (anterior)") v6,
       bulletLinea (chars "Año hidrológico (actual)") v7] := rfl
  rw [hexp, hB]
  set b1 := bulletLinea (chars "Hora (actual)") v1 with hb1
  set b2 := bulletLinea (chars "Hora (anterior)") v2 with hb2
  set b3 := bulletLinea (chars "Día (actual)") v3 with hb3
  set b4 := bulletLinea (chars "Día (anterior)") v4 with hb4
  set b5 := bulletLinea (chars "Mes (actual)") v5 with hb5
  set b6 := bulletLinea (chars "Mes (anterior)") v6 with hb6
  have hfact : (('📄' :: r) ++ '\n' :: (chars "*Huelma*:" ++ ['\n'])) ++
      (List.map (· ++ ['\n']) [b1, b2, b3, b4, b5, b6, Bpre ++ ['m']]).flatten
      = ('📄' :: r) ++ '\n' :: ((chars "*Huelma*:" ++ '\n' ::
          (List.map (· ++ ['\n']) [b1, b2, b3, b4, b5, b6]).flatten) ++
        ((Bpre ++ ['m']) ++ ['\n'])) := by
    simp [List.append_assoc]
  rw [hfact, pyStrip_hoy '📄' r _ Bpre (by decide)]
  have hfact2 : ('📄' :: r) ++ '\n' :: ((chars "*Huelma*:" ++ '\n' ::
      (List.map (· ++ ['\n']) [b1, b2, b3, b4, b5, b6]).flatten) ++ (Bpre ++ ['m']))
      = ('📄' :: r) ++ '\n' :: (chars "*Huelma*:" ++ '\n' ::
        ((List.map (· ++ ['\n']) [b1, b2, b3, b4, b5, b6]).flatten ++ (Bpre ++ ['m']))) := by
    simp [List.append_assoc]
  rw [hfact2, ← hB]
  rw [splitLines_hoy_raw ('📄' :: r) [b1, b2, b3, b4, b5, b6] _ hnl
    (by
      intro b hb
      simp only [List.mem_cons, List.not_mem_nil, or_false] at hb
      rcases hb with rfl | rfl | rfl | rfl | rfl | rfl <;>
        exact bulletLinea_noNl _ _ (noNl_ofBool (by decide)))
    (bulletLinea_noNl _ _ (noNl_ofBool (by decide)))
    (by rw [bulletLinea_cons]; simp)]
  simp

/-- Bullet-line counts of a rendered weekly body. -/
theorem counts_cuerpo (ts : Option Str) (etiquetas : List Str) (lluvias : List ℚ) (m a : ℚ)
    (hts : tsNoNl ts) (hlab : ∀ f ∈ etiquetas, noNl f) :
    lineasDiarias (cuerpoSemanal (cabeceraSemanal ts) etiquetas lluvias (some m) (some a))
      = min etiquetas.length lluvias.length ∧
    lineasTotales (cuerpoSemanal (cabeceraSemanal ts) etiquetas lluvias (some m) (some a))
      = 2 := by
  obtain ⟨r, hr⟩ := cabeceraSemanal_cons ts
  have hnl : noNl ('📄' :: r) := hr ▸ cabeceraSemanal_noNl ts hts
  rw [hr]
  have hsplit := cuerpoSemanal_splitLines '📄' r etiquetas lluvias m a (by decide) hnl hlab
  have hcounts := counts_of_split _ _ _ _ _ hsplit esBala_cons cons_ne_acum
    (fun d hd => by
      obtain ⟨f, hf, v, _, rfl⟩ := mem_zipWith hd
      exact ⟨esBala_bulletLinea f v, bulletLinea_ne_acum f v⟩)
    (esBala_bulletLinea _ _) (esBala_bulletLinea _ _)
  rwa [List.length_zipWith] at hcounts

/- ============ claims C4, C5, C6, C9 ============ -/

/-- Counterexample to C4 as stated: a successful weekly render of a
7-value row emits its 7 daily lines but only 2 total lines (month and
hydrological year) — there is no separate 7-day-total line, so "7 daily
lines plus 3 total lines" fails. -/
theorem C4_totals_cex :
    ∃ out, formatear_semanal none none (some (chars "Huelma 1 2 3 4 5 6 7"))
        (chars "25/01/2026") = some out ∧
      ¬ (lineasDiarias out = 7 ∧ lineasTotales out = 3) := by
  refine ⟨_, semanal_exito_fallback none none _ _ ⟨2026, 1, 25⟩ (by decide)
    (by with_unfolding_all decide) rfl (by decide), ?_⟩
  have hm : (parsear_valores (chars "Huelma 1 2 3 4 5 6 7")).get?
      ((parsear_valores (chars "Huelma 1 2 3 4 5 6 7")).length - 2) = some 6 := by
    with_unfolding_all decide
  have hav : (parsear_valores (chars "Huelma 1 2 3 4 5 6 7")).get?
      ((parsear_valores (chars "Huelma 1 2 3 4 5 6 7")).length - 1) = some 7 := by
    with_unfolding_all decide
  rw [hm, hav]
  have hc := counts_cuerpo none
    ((List.range 7).map fun i => strftimeDMY (restarDias ⟨2026, 1, 25⟩ i))
    ((parsear_valores (chars "Huelma 1 2 3 4 5 6 7")).take 7) 6 7 trivial
    (by
      intro f hf
      simp only [List.mem_map] at hf
      obtain ⟨i, _, rfl⟩ := hf
      exact strftimeDMY_noNl _)
  intro hcon
  exact absurd (hc.2.symm.trans hcon.2) (by decide)

/-- C4 (amended): when the weekly formatter reaches the daily
breakdown, it emits `arityReq fechas_cols` daily lines — the number of
recovered date labels when at least two were recovered, else seven —
plus exactly two total lines (month and hydrological year). There is
no 7-day-total line, and the daily-line count follows the label
source. -/
theorem C4_weekly_line_counts (ts : Option Str) (fcs : Option (List Str)) (l hoy : Str)
    (hts : tsNoNl ts)
    (hfc : ∀ fc, fcs = some fc → ∀ f ∈ fc, noNl f)
    (hl : l ≠ [])
    (h7 : 7 ≤ (parsear_valores l).length)
    (hn : arityReq fcs ≤ (parsear_valores l).length)
    (hstrp : fechasRec fcs = none →
      (strptimeDMY? (fecha_de_timestamp ts hoy)).isSome = true) :
    ∃ out, formatear_semanal ts fcs (some l) hoy = some out ∧
      lineasDiarias out = arityReq fcs ∧ lineasTotales out = 2 := by
  obtain ⟨m, hm⟩ : ∃ m, (parsear_valores l).get? ((parsear_valores l).length - 2) = some m := by
    rcases hq : (parsear_valores l).get? ((parsear_valores l).length - 2) with _ | m
    · have := List.get?_eq_none.mp hq
      omega
    · exact ⟨m, rfl⟩
  obtain ⟨av, hav⟩ : ∃ av, (parsear_valores l).get? ((parsear_valores l).length - 1) = some av := by
    rcases hq : (parsear_valores l).get? ((parsear_valores l).length - 1) with _ | av
    · have := List.get?_eq_none.mp hq
      omega
    · exact ⟨av, rfl⟩
  rcases hrec : fechasRec fcs with _ | fc
  · obtain ⟨endDate, hed⟩ : ∃ d, strptimeDMY? (fecha_de_timestamp ts hoy) = some d := by
      have h2 := hstrp hrec
      rcases hq : strptimeDMY? (fecha_de_timestamp ts hoy) with _ | d
      · rw [hq] at h2
        simp at h2
      · exact ⟨d, rfl⟩
    refine ⟨_, semanal_exito_fallback ts fcs l hoy endDate hl h7 hrec hed, ?_⟩
    rw [hm, hav]
    have harity : arityReq fcs = 7 := by
      unfold arityReq
      rw [hrec]
    have hc := counts_cuerpo ts ((List.range 7).map fun i => strftimeDMY (restarDias endDate i))
      ((parsear_valores l).take 7) m av hts
      (by
        intro f hf
        simp only [List.mem_map] at hf
        obtain ⟨i, _, rfl⟩ := hf
        exact strftimeDMY_noNl _)
    rw [harity]
    refine ⟨?_, hc.2⟩
    rw [hc.1]
    simp only [List.length_map, List.length_range, List.length_take]
    omega
  · have hfcs2 : fcs = some fc ∧ 2 ≤ fc.length := by
      rcases fcs with _ | fc0
      · simp [fechasRec] at hrec
      · unfold fechasRec at hrec
        dsimp only at hrec
        by_cases h2 : 2 ≤ fc0.length
        · rw [if_pos h2] at hrec
          injection hrec with hh
          subst hh
          exact ⟨rfl, h2⟩
        · rw [if_neg h2] at hrec
          cases hrec
    obtain ⟨hfcs_eq, h2⟩ := hfcs2
    subst hfcs_eq
    have harity : arityReq (some fc) = fc.length := by
      unfold arityReq
      rw [hrec]
    rw [harity] at hn ⊢
    refine ⟨_, semanal_exito_fc ts fc l hoy hl h2 h7 hn, ?_⟩
    rw [hm, hav]
    have hc := counts_cuerpo ts fc ((parsear_valores l).take fc.length) m av hts (hfc fc rfl)
    refine ⟨?_, hc.2⟩
    rw [hc.1]
    simp only [List.length_take]
    omega

/-- Witness for C4 (amended) at a concrete 7-value row with no
recovered columns. -/
theorem C4_weekly_line_counts_witness :
    ∃ out, formatear_semanal none none (some (chars "Huelma 1 2 3 4 5 6 7,5"))
        (chars "25/01/2026") = some out ∧
      lineasDiarias out = arityReq none ∧ lineasTotales out = 2 :=
  C4_weekly_line_counts none none (chars "Huelma 1 2 3 4 5 6 7,5") (chars "25/01/2026")
    trivial (fun fc h => by cases h) (by decide) (by with_unfolding_all decide)
    (by with_unfolding_all decide) (fun _ => by decide)

/-- Counterexample to C6 as stated: a located row yielding 10 numeric
values — at least 7 but fewer than 11 — is not rejected as insufficient:
the weekly formatter renders its seven daily lines. -/
theorem C6_not_rejected_cex :
    ∃ out, formatear_semanal none none
        (some (chars "P63 Huelma 19,1 5,2 29,3 7,5 5,2 0,0 0,0 66,3 98,9 325,2"))
        (chars "25/01/2026") = some out ∧ lineasDiarias out = 7 := by
  refine ⟨_, semanal_exito_fallback none none _ _ ⟨2026, 1, 25⟩ (by decide)
    (by with_unfolding_all decide) rfl (by decide), ?_⟩
  have hm : (parsear_valores
        (chars "P63 Huelma 19,1 5,2 29,3 7,5 5,2 0,0 0,0 66,3 98,9 325,2")).get?
      ((parsear_valores
        (chars "P63 Huelma 19,1 5,2 29,3 7,5 5,2 0,0 0,0 66,3 98,9 325,2")).length - 2) =
      some (989 / 10) := by
    with_unfolding_all decide
  have hav : (parsear_valores
        (chars "P63 Huelma 19,1 5,2 29,3 7,5 5,2 0,0 0,0 66,3 98,9 325,2")).get?
      ((parsear_valores
        (chars "P63 Huelma 19,1 5,2 29,3 7,5 5,2 0,0 0,0 66,3 98,9 325,2")).length - 1) =
      some (1626 / 5) := by
    with_unfolding_all decide
  rw [hm, hav]
  have hc := counts_cuerpo none
    ((List.range 7).map fun i => strftimeDMY (restarDias ⟨2026, 1, 25⟩ i))
    ((parsear_valores
      (chars "P63 Huelma 19,1 5,2 29,3 7,5 5,2 0,0 0,0 66,3 98,9 325,2")).take 7)
    (989 / 10) (1626 / 5) trivial
    (by
      intro f hf
      simp only [List.mem_map] at hf
      obtain ⟨i, _, rfl⟩ := hf
      exact strftimeDMY_noNl _)
  rw [hc.1]
  have hlen : (parsear_valores
      (chars "P63 Huelma 19,1 5,2 29,3 7,5 5,2 0,0 0,0 66,3 98,9 325,2")).length = 10 := by
    with_unfolding_all decide
  simp only [List.length_map, List.length_range, List.length_take, hlen]
  decide

/-- C6 (amended): the weekly formatter's minimum arity is 7, not 11:
a row with fewer than 7 values is rejected with a diagnostic that does
not report the count; the count-reporting diagnostic occurs only when
at least two recovered date columns demand more values than found; and
a row of exactly 7 values — fewer than 11 — is rendered, not
rejected. -/
theorem C6_weekly_min_arity_seven :
    (∀ (ts : Option Str) (fcs : Option (List Str)) (l hoy : Str), l ≠ [] →
      (parsear_valores l).length < 7 →
      formatear_semanal ts fcs (some l) hoy =
        some (cabeceraSemanal ts ++
          chars "\n\nNo hay suficientes valores para mostrar la semana.")) ∧
    (∀ (ts : Option Str) (fc : List Str) (l hoy : Str), l ≠ [] → 2 ≤ fc.length →
      7 ≤ (parsear_valores l).length → (parsear_valores l).length < fc.length →
      formatear_semanal ts (some fc) (some l) hoy =
        some (cabeceraSemanal ts ++ chars "\n\nNo hay suficientes valores diarios (" ++
          natToChars (parsear_valores l).length ++ chars ") para " ++
          natToChars fc.length ++ chars " columnas del PDF.")) ∧
    (∀ (ts : Option Str) (l hoy : Str) (endDate : Fecha), tsNoNl ts → l ≠ [] →
      (parsear_valores l).length = 7 →
      strptimeDMY? (fecha_de_timestamp ts hoy) = some endDate →
      ∃ out, formatear_semanal ts none (some l) hoy = some out ∧
        lineasDiarias out = 7) := by
  refine ⟨fun ts fcs l hoy hl h7 => semanal_pocos ts fcs l hoy hl h7,
    fun ts fc l hoy hl h2 h7 hn => semanal_diag ts fc l hoy hl h2 h7 hn, ?_⟩
  intro ts l hoy endDate hts hl hlen hstrp
  have h7 : 7 ≤ (parsear_valores l).length := by omega
  obtain ⟨m, hm⟩ : ∃ m, (parsear_valores l).get? ((parsear_valores l).length - 2) = some m := by
    rcases hq : (parsear_valores l).get? ((parsear_valores l).length - 2) with _ | m
    · have := List.get?_eq_none.mp hq
      omega
    · exact ⟨m, rfl⟩
  obtain ⟨av, hav⟩ : ∃ av, (parsear_valores l).get? ((parsear_valores l).length - 1) = some av := by
    rcases hq : (parsear_valores l).get? ((parsear_valores l).length - 1) with _ | av
    · have := List.get?_eq_none.mp hq
      omega
    · exact ⟨av, rfl⟩
  refine ⟨_, semanal_exito_fallback ts none l hoy endDate hl h7 rfl hstrp, ?_⟩
  rw [hm, hav]
  have hc := counts_cuerpo ts ((List.range 7).map fun i => strftimeDMY (restarDias endDate i))
    ((parsear_valores l).take 7) m av hts
    (by
      intro f hf
      simp only [List.mem_map] at hf
      obtain ⟨i, _, rfl⟩ := hf
      exact strftimeDMY_noNl _)
  rw [hc.1]
  simp only [List.length_map, List.length_range, List.length_take]
  omega

/-- Witness for C6 (amended) at concrete inputs for each of its three
parts. -/
theorem C6_weekly_min_arity_seven_witness :
    (formatear_semanal none none (some (chars "Huelma 1 2 3")) (chars "x") =
      some (cabeceraSemanal none ++
        chars "\n\nNo hay suficientes valores para mostrar la semana.")) ∧
    (formatear_semanal none
        (some [chars "a", chars "b", chars "c", chars "d", chars "e", chars "f",
          chars "g", chars "h"])
        (some (chars "Huelma 1 2 3 4 5 6 7")) (chars "x") =
      some (cabeceraSemanal none ++ chars "\n\nNo hay suficientes valores diarios (" ++
        natToChars (parsear_valores (chars "Huelma 1 2 3 4 5 6 7")).length ++
        chars ") para " ++
        natToChars ([chars "a", chars "b", chars "c", chars "d", chars "e", chars "f",
          chars "g", chars "h"] : List Str).length ++ chars " columnas del PDF.")) ∧
    (∃ out, formatear_semanal none none (some (chars "Huelma 0 1 2 3 4 5 6,5"))
        (chars "25/01/2026") = some out ∧ lineasDiarias out = 7) :=
  ⟨C6_weekly_min_arity_seven.1 none none (chars "Huelma 1 2 3") (chars "x")
      (by decide) (by with_unfolding_all decide),
    C6_weekly_min_arity_seven.2.1 none
      [chars "a", chars "b", chars "c", chars "d", chars "e", chars "f",
        chars "g", chars "h"]
      (chars "Huelma 1 2 3 4 5 6 7") (chars "x") (by decide) (by decide)
      (by with_unfolding_all decide) (by with_unfolding_all decide),
    C6_weekly_min_arity_seven.2.2 none (chars "Huelma 0 1 2 3 4 5 6,5")
      (chars "25/01/2026") ⟨2026, 1, 25⟩ trivial (by decide)
      (by with_unfolding_all decide) (by decide)⟩

/-- C5: a document without any date pattern still yields a complete
daily report: the locator returns `none` (an explicit absence signal),
and the formatter renders the placeholder header followed by the
station caption and all seven value lines. -/
theorem C5_no_timestamp_full_report (texto l : Str) (hs : '/' ∉ texto) (hl : l ≠ [])
    (h7 : 7 ≤ (parsear_valores l).length) :
    extraer_timestamp texto = none ∧
    splitLines (formatear_hoy (extraer_timestamp texto) (some l)) =
      chars "📄 *Lluvia diaria* (actualizado: no detectado)" :: chars "*Huelma*:" ::
        List.zipWith bulletLinea etiquetasHoy ((parsear_valores l).take 7) := by
  have ht := extraer_timestamp_none texto hs
  refine ⟨ht, ?_⟩
  rw [ht, hoy_splitLines none l trivial hl h7]
  rfl

/-- Witness for C5 at a concrete document and row. -/
theorem C5_no_timestamp_full_report_witness :
    extraer_timestamp (chars "sin fecha alguna") = none ∧
    splitLines (formatear_hoy (extraer_timestamp (chars "sin fecha alguna"))
        (some (chars "Huelma 0,0 1 2 3 4 5 6"))) =
      chars "📄 *Lluvia diaria* (actualizado: no detectado)" :: chars "*Huelma*:" ::
        List.zipWith bulletLinea etiquetasHoy
          ((parsear_valores (chars "Huelma 0,0 1 2 3 4 5 6")).take 7) :=
  C5_no_timestamp_full_report (chars "sin fecha alguna") (chars "Huelma 0,0 1 2 3 4 5 6")
    (by decide) (by decide) (by with_unfolding_all decide)

/-- Counterexample to C9 as stated: at timestamp `01/01/2026` the
previous-month line of the daily report carries the constant label
`Mes (anterior)`, and the string `12-diciembre` appears on no line of
the report. -/
theorem C9_no_month_name_cex :
    (splitLines (formatear_hoy (some (chars "01/01/2026 10:00"))
        (some (chars "Huelma 1 2 3 4 5 6 7")))).get? 7 =
      some (bulletLinea (chars "Mes (anterior)") 6) ∧
    (splitLines (formatear_hoy (some (chars "01/01/2026 10:00"))
        (some (chars "Huelma 1 2 3 4 5 6 7")))).all
      (fun ln => !esSubcadena (chars "12-diciembre") ln) = true := by
  have hsp := hoy_splitLines (some (chars "01/01/2026 10:00")) (chars "Huelma 1 2 3 4 5 6 7")
    (noNl_ofBool (by decide)) (by decide) (by with_unfolding_all decide)
  have hp : parsear_valores (chars "Huelma 1 2 3 4 5 6 7") = [1, 2, 3, 4, 5, 6, 7] := by
    with_unfolding_all decide
  rw [hsp, hp]
  constructor
  · rfl
  · with_unfolding_all decide

/-- C9 (amended): the daily formatter's month labels are fixed
strings: the previous-month line always carries the constant label
`Mes (anterior)` (never a month number/name derived from the
timestamp), and every line after the header is independent of the
timestamp. -/
theorem C9_month_label_constant (ts l : Str) (hts : noNl ts) (hl : l ≠ [])
    (h7 : 7 ≤ (parsear_valores l).length) :
    ∃ v6, ((parsear_valores l).take 7).get? 5 = some v6 ∧
      (splitLines (formatear_hoy (some ts) (some l))).get? 7 =
        some (bulletLinea (chars "Mes (anterior)") v6) ∧
      (splitLines (formatear_hoy (some ts) (some l))).tail =
        (splitLines (formatear_hoy none (some l))).tail := by
  obtain ⟨v1, v2, v3, v4, v5, v6, v7, hvs⟩ := take7_explicit h7
  refine ⟨v6, by rw [hvs]; rfl, ?_, ?_⟩
  · rw [hoy_splitLines (some ts) l hts hl h7, hvs]
    rfl
  · rw [hoy_splitLines (some ts) l hts hl h7, hoy_splitLines none l trivial hl h7]
    rfl

/-- Witness for C9 (amended) at the month-boundary timestamp of the
claim. -/
theorem C9_month_label_constant_witness :
    ∃ v6, ((parsear_valores (chars "Huelma 1 2 3 4 5 6 7")).take 7).get? 5 = some v6 ∧
      (splitLines (formatear_hoy (some (chars "01/01/2026 10:00"))
          (some (chars "Huelma 1 2 3 4 5 6 7")))).get? 7 =
        some (bulletLinea (chars "Mes (anterior)") v6) ∧
      (splitLines (formatear_hoy (some (chars "01/01/2026 10:00"))
          (some (chars "Huelma 1 2 3 4 5 6 7")))).tail =
        (splitLines (formatear_hoy none (some (chars "Huelma 1 2 3 4 5 6 7")))).tail :=
  C9_month_label_constant (chars "01/01/2026 10:00") (chars "Huelma 1 2 3 4 5 6 7")
    (noNl_ofBool (by decide)) (by decide) (by with_unfolding_all decide)

end HuelmaBot
